import Mathlib

/-!
Shallow embedding of the webhook transaction service
(`app/models.py`, `app/schemas.py`, `app/main.py`, `app/worker.py`).

The relational store is a list of rows; time is an abstract `Nat` clock
passed to each operation (the code calls `datetime.utcnow()` / the storage
layer's `func.now()`).  The Celery queue is modelled by the list of effects
an endpoint emits, in program order.
-/

namespace WebhookTxn

/-- The `Transaction` ORM model of `app/models.py`: string primary key
`transaction_id`, the account/amount/currency columns, a string `status`
column defaulting to `"PROCESSING"`, a `created_at` timestamp set at
creation and a nullable `processed_at` timestamp. -/
structure Transaction where
  transaction_id : String
  source_account : String
  destination_account : String
  amount : Rat
  currency : String
  status : String
  created_at : Nat
  processed_at : Option Nat
  deriving DecidableEq, Repr

/-- The `TransactionCreate` request schema of `app/schemas.py`: five typed
fields and no validators or constraints beyond the field types, so any
strings (including empty ones) and any numeric amount pass validation. -/
structure TransactionCreate where
  transaction_id : String
  source_account : String
  destination_account : String
  amount : Rat
  currency : String
  deriving DecidableEq, Repr

/-- The two response bodies `receive_webhook` can return. -/
inductive WebhookResponse where
  | ACCEPTED
  | ALREADY_EXISTS
  deriving DecidableEq, Repr

/-- An observable side effect of the ingestion endpoint, in program order:
a committed insert of a row, or `process_transaction.delay(id)` handing the
bare identifier to the queue. -/
inductive Effect where
  | commitInsert (t : Transaction)
  | enqueue (transaction_id : String)
  deriving DecidableEq, Repr

/-- `db.query(Transaction).filter_by(transaction_id=id).first()`:
the first row of the table whose key matches, if any. -/
def findTxn (db : List Transaction) (id : String) : Option Transaction :=
  db.find? (fun t => t.transaction_id == id)

/-- The row constructed by `receive_webhook` for a fresh payload:
payload fields copied over, `status="PROCESSING"`, `created_at` stamped by
the storage clock, `processed_at` still NULL. -/
def mkTransaction (payload : TransactionCreate) (now : Nat) : Transaction :=
  { transaction_id := payload.transaction_id
    source_account := payload.source_account
    destination_account := payload.destination_account
    amount := payload.amount
    currency := payload.currency
    status := "PROCESSING"
    created_at := now
    processed_at := none }

/-- Result of one call to the webhook endpoint: the response body, the
table after the call, and the effects the call performed in order. -/
structure SubmitResult where
  response : WebhookResponse
  db : List Transaction
  effects : List Effect
  deriving DecidableEq, Repr

/-- `receive_webhook` of `app/main.py`, run atomically: look the id up;
if found return `ALREADY_EXISTS` with no write and no enqueue; otherwise
build the row, `db.add` + `db.commit()` it, then
`process_transaction.delay(new_txn.transaction_id)`, and return
`ACCEPTED`. -/
def receive_webhook (payload : TransactionCreate) (now : Nat)
    (db : List Transaction) : SubmitResult :=
  match findTxn db payload.transaction_id with
  | some _ => { response := .ALREADY_EXISTS, db := db, effects := [] }
  | none =>
    let new_txn := mkTransaction payload now
    { response := .ACCEPTED
      db := db ++ [new_txn]
      effects := [.commitInsert new_txn, .enqueue new_txn.transaction_id] }

/-- Apply `f` to the first row whose key is `id` (the row the ORM query
`.first()` returned and the session then flushes), leaving every other row
untouched. -/
def updateTxn (db : List Transaction) (id : String)
    (f : Transaction → Transaction) : List Transaction :=
  match db with
  | [] => []
  | t :: rest =>
    if t.transaction_id == id then f t :: rest else t :: updateTxn rest id f

/-- `process_transaction` of `app/worker.py` (the worker body after its
fixed delay): re-read the row by id from storage; if absent do nothing;
if present set `status = "PROCESSED"` and `processed_at = utcnow()` and
commit.  There is no guard on the current status: an already processed row
is stamped again. -/
def process_transaction (transaction_id : String) (now : Nat)
    (db : List Transaction) : List Transaction :=
  match findTxn db transaction_id with
  | none => db
  | some _ =>
    updateTxn db transaction_id
      (fun t => { t with status := "PROCESSED", processed_at := some now })

/-- `get_transaction` of `app/main.py`: a pure read that raises
`HTTPException(status_code=404)` when no row matches and otherwise returns
the row. -/
def get_transaction (transaction_id : String) (db : List Transaction) :
    Except Nat Transaction :=
  match findTxn db transaction_id with
  | none => .error 404
  | some t => .ok t

/-- Tables reachable from the empty table by the two mutating operations of
the service, at arbitrary clock readings. -/
inductive Reachable : List Transaction → Prop where
  | init : Reachable []
  | submit (p : TransactionCreate) (now : Nat) {db : List Transaction} :
      Reachable db → Reachable (receive_webhook p now db).db
  | handle (id : String) (now : Nat) {db : List Transaction} :
      Reachable db → Reachable (process_transaction id now db)

/-- The immutable columns of a row: everything except `status` and
`processed_at`. -/
def immutableEq (a b : Transaction) : Prop :=
  b.transaction_id = a.transaction_id ∧ b.source_account = a.source_account ∧
  b.destination_account = a.destination_account ∧ b.amount = a.amount ∧
  b.currency = a.currency ∧ b.created_at = a.created_at

/-!
### Interleaved model of the check-then-act race

`receive_webhook` runs its duplicate lookup and its `db.commit()` as two
separate storage operations, so two concurrent requests for the same id can
both observe "not found" before either commits.  The storage layer enforces
the `transaction_id` primary key at commit time; `receive_webhook` wraps no
exception handler around `db.add`/`db.commit`, so a uniqueness violation
raised by the losing commit propagates to the caller as a storage error.
-/

/-- A commit of an insert, with the storage layer enforcing the
`transaction_id` primary key: duplicates are rejected with an integrity
error. -/
def commitInsertPK (db : List Transaction) (t : Transaction) :
    Except String (List Transaction) :=
  match findTxn db t.transaction_id with
  | some _ => .error "UNIQUE constraint failed: transactions.transaction_id"
  | none => .ok (db ++ [t])

/-- What one interleaved submission is observed to do: either one of the
endpoint's two responses, or an uncaught storage error. -/
inductive SubmitOutcome where
  | responded (r : WebhookResponse)
  | storageError (msg : String)
  deriving DecidableEq, Repr

/-- The lookup step of `receive_webhook`, run against the table as it is
when this request performs its query: did the duplicate check find a row? -/
def submitCheckPhase (db : List Transaction) (id : String) : Bool :=
  (findTxn db id).isSome

/-- The remainder of `receive_webhook` after its lookup step, run against
the table as it is when this request commits.  `found` is what the earlier
lookup observed.  A uniqueness violation at commit is not caught by the
handler and surfaces as a storage error. -/
def submitCommitPhase (payload : TransactionCreate) (now : Nat)
    (found : Bool) (db : List Transaction) :
    SubmitOutcome × List Transaction :=
  if found then (.responded .ALREADY_EXISTS, db)
  else
    match commitInsertPK db (mkTransaction payload now) with
    | .ok db2 => (.responded .ACCEPTED, db2)
    | .error e => (.storageError e, db)

/-! ### Helper lemmas about lookup, update and filtering -/

theorem findTxn_cons (t : Transaction) (rest : List Transaction) (id : String) :
    findTxn (t :: rest) id =
      if t.transaction_id == id then some t else findTxn rest id := by
  cases h : t.transaction_id == id <;> simp [findTxn, List.find?_cons, h]

theorem findTxn_append_of_none {db : List Transaction} {id : String}
    (h : findTxn db id = none) (db2 : List Transaction) :
    findTxn (db ++ db2) id = findTxn db2 id := by
  induction db with
  | nil => rfl
  | cons t rest ih =>
    rw [findTxn_cons] at h
    rw [List.cons_append, findTxn_cons]
    split at h
    · exact absurd h (by simp)
    · next ht => rw [if_neg ht]; exact ih h

theorem filterTxn_of_none {db : List Transaction} {id : String}
    (h : findTxn db id = none) :
    db.filter (fun t => t.transaction_id == id) = [] := by
  induction db with
  | nil => rfl
  | cons t rest ih =>
    rw [findTxn_cons] at h
    split at h
    · exact absurd h (by simp)
    · next ht =>
      simp only [Bool.not_eq_true] at ht
      rw [List.filter_cons_of_neg (by simp [ht])]
      exact ih h

theorem findTxn_updateTxn (db : List Transaction) (id : String)
    (f : Transaction → Transaction)
    (hf : ∀ t, (f t).transaction_id = t.transaction_id) :
    findTxn (updateTxn db id f) id = (findTxn db id).map f := by
  induction db with
  | nil => rfl
  | cons t rest ih =>
    rw [updateTxn]
    by_cases ht : (t.transaction_id == id) = true
    · rw [if_pos ht, findTxn_cons, findTxn_cons, if_pos ht]
      have hft : ((f t).transaction_id == id) = true := by rw [hf t]; exact ht
      rw [if_pos hft]
      rfl
    · rw [if_neg ht, findTxn_cons, findTxn_cons, if_neg ht, if_neg ht]
      exact ih

theorem mem_updateTxn {db : List Transaction} {id : String}
    {f : Transaction → Transaction} {u : Transaction}
    (h : u ∈ updateTxn db id f) : u ∈ db ∨ ∃ t ∈ db, u = f t := by
  induction db with
  | nil => exact absurd h (by simp [updateTxn])
  | cons t rest ih =>
    rw [updateTxn] at h
    split at h
    · rcases List.mem_cons.mp h with h1 | h1
      · exact Or.inr ⟨t, List.mem_cons_self t rest, h1⟩
      · exact Or.inl (List.mem_cons_of_mem t h1)
    · rcases List.mem_cons.mp h with h1 | h1
      · exact Or.inl (h1 ▸ List.mem_cons_self t rest)
      · rcases ih h1 with h2 | ⟨v, hv, he⟩
        · exact Or.inl (List.mem_cons_of_mem t h2)
        · exact Or.inr ⟨v, List.mem_cons_of_mem t hv, he⟩

theorem immutableEq_refl (a : Transaction) : immutableEq a a :=
  ⟨rfl, rfl, rfl, rfl, rfl, rfl⟩

theorem forall₂_immutable_self (db : List Transaction) :
    List.Forall₂ immutableEq db db := by
  induction db with
  | nil => exact List.Forall₂.nil
  | cons t rest ih => exact List.Forall₂.cons (immutableEq_refl t) ih

theorem forall₂_immutable_updateTxn (db : List Transaction) (id : String)
    (f : Transaction → Transaction) (hf : ∀ t, immutableEq t (f t)) :
    List.Forall₂ immutableEq db (updateTxn db id f) := by
  induction db with
  | nil => exact List.Forall₂.nil
  | cons t rest ih =>
    rw [updateTxn]
    split
    · exact List.Forall₂.cons (hf t) (forall₂_immutable_self rest)
    · exact List.Forall₂.cons (immutableEq_refl t) ih

theorem receive_webhook_of_none (now : Nat) {p : TransactionCreate}
    {db : List Transaction} (h : findTxn db p.transaction_id = none) :
    receive_webhook p now db =
      { response := .ACCEPTED
        db := db ++ [mkTransaction p now]
        effects := [.commitInsert (mkTransaction p now),
                    .enqueue p.transaction_id] } := by
  unfold receive_webhook
  rw [h]
  rfl

theorem receive_webhook_of_some (now : Nat) {p : TransactionCreate}
    {db : List Transaction} {t : Transaction}
    (h : findTxn db p.transaction_id = some t) :
    receive_webhook p now db =
      { response := .ALREADY_EXISTS, db := db, effects := [] } := by
  unfold receive_webhook
  rw [h]

theorem process_transaction_of_none (now : Nat) {id : String}
    {db : List Transaction} (h : findTxn db id = none) :
    process_transaction id now db = db := by
  unfold process_transaction
  rw [h]

theorem process_transaction_of_some (now : Nat) {id : String}
    {db : List Transaction} {t : Transaction} (h : findTxn db id = some t) :
    process_transaction id now db =
      updateTxn db id
        (fun u => { u with status := "PROCESSED", processed_at := some now }) := by
  unfold process_transaction
  rw [h]

/-! ### Claim theorems -/

/-- C1: submitting the same `transaction_id` twice yields exactly one
persisted row for that id; the first call answers `ACCEPTED`, the second
answers `ALREADY_EXISTS`, leaves the table unchanged and performs no
effect (no write, no enqueue). -/
theorem C1_idempotent_ingestion (p : TransactionCreate) (now1 now2 : Nat)
    (db : List Transaction) (h : findTxn db p.transaction_id = none) :
    (receive_webhook p now1 db).response = .ACCEPTED ∧
    (receive_webhook p now2 (receive_webhook p now1 db).db).response =
      .ALREADY_EXISTS ∧
    (receive_webhook p now2 (receive_webhook p now1 db).db).db =
      (receive_webhook p now1 db).db ∧
    (receive_webhook p now2 (receive_webhook p now1 db).db).effects = [] ∧
    ((receive_webhook p now1 db).db.filter
        (fun t => t.transaction_id == p.transaction_id)).length = 1 := by
  have hr1 := receive_webhook_of_none now1 h
  have hfind1 : findTxn (receive_webhook p now1 db).db p.transaction_id =
      some (mkTransaction p now1) := by
    rw [hr1]
    show findTxn (db ++ [mkTransaction p now1]) p.transaction_id = _
    rw [findTxn_append_of_none h, findTxn_cons, if_pos (by simp [mkTransaction])]
  have hr2 := receive_webhook_of_some now2 hfind1
  refine ⟨by rw [hr1], by rw [hr2], by rw [hr2], by rw [hr2], ?_⟩
  rw [hr1]
  show (List.filter _ (db ++ [mkTransaction p now1])).length = 1
  rw [List.filter_append, filterTxn_of_none h]
  simp [mkTransaction]

/-- C1 witness at a concrete payload and the empty table. -/
theorem C1_witness :
    (receive_webhook ⟨"tx1", "A", "B", 100, "USD"⟩ 0 []).response = .ACCEPTED ∧
    (receive_webhook ⟨"tx1", "A", "B", 100, "USD"⟩ 1
        (receive_webhook ⟨"tx1", "A", "B", 100, "USD"⟩ 0 []).db).response =
      .ALREADY_EXISTS ∧
    (receive_webhook ⟨"tx1", "A", "B", 100, "USD"⟩ 1
        (receive_webhook ⟨"tx1", "A", "B", 100, "USD"⟩ 0 []).db).db =
      (receive_webhook ⟨"tx1", "A", "B", 100, "USD"⟩ 0 []).db ∧
    (receive_webhook ⟨"tx1", "A", "B", 100, "USD"⟩ 1
        (receive_webhook ⟨"tx1", "A", "B", 100, "USD"⟩ 0 []).db).effects = [] ∧
    ((receive_webhook ⟨"tx1", "A", "B", 100, "USD"⟩ 0 []).db.filter
        (fun t => t.transaction_id == "tx1")).length = 1 :=
  C1_idempotent_ingestion ⟨"tx1", "A", "B", 100, "USD"⟩ 0 1 [] rfl

/-- C2: on a fresh `transaction_id` the endpoint creates the row with
`status = "PROCESSING"`, `created_at` stamped now and `processed_at` NULL,
appends it to the table by a committed insert, enqueues only the
identifier, answers `ACCEPTED`, and every enqueue effect is strictly
preceded by the committed insert. -/
theorem C2_persist_before_enqueue (p : TransactionCreate) (now : Nat)
    (db : List Transaction) (h : findTxn db p.transaction_id = none) :
    (receive_webhook p now db).response = .ACCEPTED ∧
    (mkTransaction p now).status = "PROCESSING" ∧
    (mkTransaction p now).created_at = now ∧
    (mkTransaction p now).processed_at = none ∧
    (receive_webhook p now db).db = db ++ [mkTransaction p now] ∧
    (receive_webhook p now db).effects =
      [.commitInsert (mkTransaction p now), .enqueue p.transaction_id] ∧
    ∀ i e, (receive_webhook p now db).effects.get? i = some (.enqueue e) →
      ∃ j, j < i ∧ (receive_webhook p now db).effects.get? j =
        some (.commitInsert (mkTransaction p now)) := by
  rw [receive_webhook_of_none now h]
  refine ⟨rfl, rfl, rfl, rfl, rfl, rfl, ?_⟩
  intro i e hi
  match i with
  | 0 => exact absurd hi (by simp)
  | 1 => exact ⟨0, Nat.zero_lt_one, rfl⟩
  | (n + 2) => exact absurd hi (by simp)

/-- C2 witness at a concrete payload and the empty table. -/
theorem C2_witness :
    (receive_webhook ⟨"tx1", "A", "B", 100, "USD"⟩ 3 []).response = .ACCEPTED ∧
    (mkTransaction ⟨"tx1", "A", "B", 100, "USD"⟩ 3).status = "PROCESSING" ∧
    (mkTransaction ⟨"tx1", "A", "B", 100, "USD"⟩ 3).created_at = 3 ∧
    (mkTransaction ⟨"tx1", "A", "B", 100, "USD"⟩ 3).processed_at = none ∧
    (receive_webhook ⟨"tx1", "A", "B", 100, "USD"⟩ 3 []).db =
      [] ++ [mkTransaction ⟨"tx1", "A", "B", 100, "USD"⟩ 3] ∧
    (receive_webhook ⟨"tx1", "A", "B", 100, "USD"⟩ 3 []).effects =
      [.commitInsert (mkTransaction ⟨"tx1", "A", "B", 100, "USD"⟩ 3),
       .enqueue "tx1"] ∧
    (∀ i e, (receive_webhook ⟨"tx1", "A", "B", 100, "USD"⟩ 3 []).effects.get? i =
        some (.enqueue e) →
      ∃ j, j < i ∧
        (receive_webhook ⟨"tx1", "A", "B", 100, "USD"⟩ 3 []).effects.get? j =
          some (.commitInsert (mkTransaction ⟨"tx1", "A", "B", 100, "USD"⟩ 3))) :=
  C2_persist_before_enqueue ⟨"tx1", "A", "B", 100, "USD"⟩ 3 [] rfl

/-- C3: when the worker runs on an id whose row is in status
`"PROCESSING"` and the clock is past the row's creation instant, the row
afterwards has `status = "PROCESSED"`, `processed_at = some now` (non-null)
with `created_at` unchanged, and the stamp is at or after creation. -/
theorem C3_processing_transition (id : String) (now : Nat)
    (db : List Transaction) (t : Transaction)
    (hfind : findTxn db id = some t) (_hstat : t.status = "PROCESSING")
    (hclock : t.created_at ≤ now) :
    findTxn (process_transaction id now db) id =
      some { t with status := "PROCESSED", processed_at := some now } ∧
    (some now : Option Nat).isSome = true ∧
    t.created_at ≤ now := by
  refine ⟨?_, rfl, hclock⟩
  rw [process_transaction_of_some now hfind]
  rw [findTxn_updateTxn db id
      (fun u => { u with status := "PROCESSED", processed_at := some now })
      (fun u => rfl),
    hfind]
  rfl

/-- C3 witness: a concrete `PROCESSING` row created at time 0, worker
running at time 5. -/
theorem C3_witness :
    findTxn (process_transaction "tx1" 5
        [⟨"tx1", "A", "B", 100, "USD", "PROCESSING", 0, none⟩]) "tx1" =
      some ⟨"tx1", "A", "B", 100, "USD", "PROCESSED", 0, some 5⟩ ∧
    (some 5 : Option Nat).isSome = true ∧
    (0 : Nat) ≤ 5 :=
  C3_processing_transition "tx1" 5
    [⟨"tx1", "A", "B", 100, "USD", "PROCESSING", 0, none⟩]
    ⟨"tx1", "A", "B", 100, "USD", "PROCESSING", 0, none⟩
    rfl rfl (Nat.zero_le 5)

/-- C7: the worker on an id with no row in storage is a no-op: the table
is returned unchanged (no row created, nothing mutated) and the operation
completes normally. -/
theorem C7_handle_missing_noop (id : String) (now : Nat)
    (db : List Transaction) (h : findTxn db id = none) :
    process_transaction id now db = db := by
  unfold process_transaction
  rw [h]

/-- C7 witness: an id never stored, on the empty table. -/
theorem C7_witness :
    findTxn [] "ghost" = none ∧ process_transaction "ghost" 7 [] = [] :=
  ⟨rfl, C7_handle_missing_noop "ghost" 7 [] rfl⟩

/-- C8: the read endpoint answers a 404 error exactly when no row exists
for the id, and otherwise returns the persisted row itself (never a
default or empty record). -/
theorem C8_get_not_found_or_record (id : String) (db : List Transaction) :
    (findTxn db id = none → get_transaction id db = .error 404) ∧
    ∀ t, findTxn db id = some t → get_transaction id db = .ok t := by
  constructor
  · intro h
    unfold get_transaction
    rw [h]
  · intro t h
    unfold get_transaction
    rw [h]

/-- C8 witness: a never-submitted id yields the 404 error; a stored row is
returned as-is. -/
theorem C8_witness :
    get_transaction "tx1" [] = .error 404 ∧
    get_transaction "tx1" [mkTransaction ⟨"tx1", "A", "B", 100, "USD"⟩ 0] =
      .ok (mkTransaction ⟨"tx1", "A", "B", 100, "USD"⟩ 0) :=
  ⟨(C8_get_not_found_or_record "tx1" []).1 rfl,
   (C8_get_not_found_or_record "tx1"
      [mkTransaction ⟨"tx1", "A", "B", 100, "USD"⟩ 0]).2 _ rfl⟩

/-- C4 fails on the code: `process_transaction` has no guard on the
current status, so a second invocation on an already `PROCESSED` row
re-stamps `processed_at` with the later clock reading.  On a row created at
time 0, processed first at time 5 and redelivered at time 9, the first run
stores `processed_at = some 5` and the second overwrites it with
`some 9 ≠ some 5`. -/
theorem C4_processed_at_restamped :
    findTxn (process_transaction "tx1" 5
        [⟨"tx1", "A", "B", 100, "USD", "PROCESSING", 0, none⟩]) "tx1" =
      some ⟨"tx1", "A", "B", 100, "USD", "PROCESSED", 0, some 5⟩ ∧
    findTxn (process_transaction "tx1" 9
        (process_transaction "tx1" 5
          [⟨"tx1", "A", "B", 100, "USD", "PROCESSING", 0, none⟩])) "tx1" =
      some ⟨"tx1", "A", "B", 100, "USD", "PROCESSED", 0, some 9⟩ ∧
    (some 9 : Option Nat) ≠ some 5 :=
  ⟨rfl, rfl, by decide⟩

/-- C5: in every table reachable by the service's two operations, a row's
`processed_at` is non-null exactly when its `status` is `"PROCESSED"`:
ingestion creates rows with `"PROCESSING"` and a NULL stamp, and the worker
sets the status and the stamp together. -/
theorem C5_processed_iff_stamped {db : List Transaction}
    (hdb : Reachable db) :
    ∀ t ∈ db, (t.processed_at.isSome = true ↔ t.status = "PROCESSED") := by
  induction hdb with
  | init => intro t ht; exact absurd ht (by simp)
  | submit p now hr ih =>
    intro t ht
    rename_i db0
    cases hf : findTxn db0 p.transaction_id with
    | some u =>
      rw [receive_webhook_of_some now hf] at ht
      exact ih t ht
    | none =>
      rw [receive_webhook_of_none now hf] at ht
      rcases List.mem_append.mp ht with hm | hm
      · exact ih t hm
      · rw [List.mem_singleton.mp hm]
        simp [mkTransaction]
  | handle id now hr ih =>
    intro t ht
    rename_i db0
    cases hf : findTxn db0 id with
    | none =>
      rw [process_transaction_of_none now hf] at ht
      exact ih t ht
    | some u =>
      rw [process_transaction_of_some now hf] at ht
      rcases mem_updateTxn ht with hm | ⟨v, hv, he⟩
      · exact ih t hm
      · rw [he]
        simp

/-- C5 witness: the single row of the table reached by one submission of a
concrete payload satisfies the invariant. -/
theorem C5_witness :
    ((mkTransaction ⟨"tx1", "A", "B", 100, "USD"⟩ 0).processed_at.isSome = true ↔
      (mkTransaction ⟨"tx1", "A", "B", 100, "USD"⟩ 0).status = "PROCESSED") :=
  C5_processed_iff_stamped
    (Reachable.submit ⟨"tx1", "A", "B", 100, "USD"⟩ 0 Reachable.init)
    (mkTransaction ⟨"tx1", "A", "B", 100, "USD"⟩ 0)
    (by
      rw [receive_webhook_of_none 0
        (show findTxn []
            (TransactionCreate.mk "tx1" "A" "B" 100 "USD").transaction_id = none
          from rfl)]
      exact List.mem_singleton.mpr rfl)

/-- C6: the worker rewrites only `status` and `processed_at` — every row of
the table after `process_transaction` agrees with the corresponding row
before it on `transaction_id`, `source_account`, `destination_account`,
`amount`, `currency` and `created_at` — and ingestion never rewrites an
existing row: the table `receive_webhook` returns extends the old table. -/
theorem C6_immutable_fields_frame (id : String) (now : Nat)
    (db : List Transaction) (p : TransactionCreate) :
    List.Forall₂ immutableEq db (process_transaction id now db) ∧
    ∃ ext, (receive_webhook p now db).db = db ++ ext := by
  constructor
  · cases hf : findTxn db id with
    | none =>
      rw [process_transaction_of_none now hf]
      exact forall₂_immutable_self db
    | some t =>
      rw [process_transaction_of_some now hf]
      exact forall₂_immutable_updateTxn db id _
        (fun u => ⟨rfl, rfl, rfl, rfl, rfl, rfl⟩)
  · cases hf : findTxn db p.transaction_id with
    | none =>
      exact ⟨[mkTransaction p now], by rw [receive_webhook_of_none now hf]⟩
    | some t =>
      exact ⟨[], by rw [receive_webhook_of_some now hf]; simp⟩

/-- C9 fails on the code: under the check/check/commit/commit interleaving
of two submissions of the same unseen id — both lookups run against the
initial table before either inserts — the first commit succeeds and is
answered `ACCEPTED`, but the second commit hits the primary-key constraint
and, `receive_webhook` having no handler for an integrity error, a storage
error surfaces to that caller instead of `ALREADY_EXISTS`. -/
theorem C9_race_storage_error :
    submitCheckPhase [] "tx1" = false ∧
    (submitCommitPhase ⟨"tx1", "A", "B", 100, "USD"⟩ 0 false []).1 =
      .responded .ACCEPTED ∧
    (submitCommitPhase ⟨"tx1", "A", "B", 100, "USD"⟩ 1 false
        (submitCommitPhase ⟨"tx1", "A", "B", 100, "USD"⟩ 0 false []).2).1 =
      .storageError "UNIQUE constraint failed: transactions.transaction_id" :=
  ⟨rfl, rfl, rfl⟩

/-- C10: the request schema constrains only the field types, so a payload
whose strings are all empty and whose amount is an arbitrary number
(zero or negative included) is accepted on first sighting and persisted
verbatim, exactly as a well-formed payload is. -/
theorem C10_degenerate_payload_accepted (a : Rat) (now : Nat)
    (db : List Transaction) (h : findTxn db "" = none) :
    (receive_webhook ⟨"", "", "", a, ""⟩ now db).response = .ACCEPTED ∧
    (receive_webhook ⟨"", "", "", a, ""⟩ now db).db =
      db ++ [mkTransaction ⟨"", "", "", a, ""⟩ now] ∧
    (mkTransaction ⟨"", "", "", a, ""⟩ now).transaction_id = "" ∧
    (mkTransaction ⟨"", "", "", a, ""⟩ now).source_account = "" ∧
    (mkTransaction ⟨"", "", "", a, ""⟩ now).amount = a := by
  have h0 : findTxn db (TransactionCreate.mk "" "" "" a "").transaction_id =
      none := h
  rw [receive_webhook_of_none now h0]
  exact ⟨rfl, rfl, rfl, rfl, rfl⟩

/-- C10 witness: the all-empty payload with a negative amount, on the empty
table. -/
theorem C10_witness :
    (receive_webhook ⟨"", "", "", -1, ""⟩ 4 []).response = .ACCEPTED ∧
    (receive_webhook ⟨"", "", "", -1, ""⟩ 4 []).db =
      [] ++ [mkTransaction ⟨"", "", "", -1, ""⟩ 4] ∧
    (mkTransaction ⟨"", "", "", -1, ""⟩ 4).transaction_id = "" ∧
    (mkTransaction ⟨"", "", "", -1, ""⟩ 4).source_account = "" ∧
    (mkTransaction ⟨"", "", "", -1, ""⟩ 4).amount = -1 :=
  C10_degenerate_payload_accepted (-1) 4 [] rfl

end WebhookTxn
